/-
Verification of the ml_mentalhealth_gcp repository against its
natural-language specification.

The Lean definitions below are shallow embeddings of the Python source:
  * `target_label_mapping`        — src/pipelines/components/model/xgb_model.py
  * `preprocess_data`             — src/pipelines/components/preprocess.py
  * `loadModel`                   — src/docker/vertexai-middleware/predictor.py (_load_model)
  * `predictHandler`              — src/docker/vertexai-middleware/predictor.py (predict)
  * `integrate_composite_features`— src/pipelines/components/build/ml_inference_data.py
  * `postSearchCast` / tuning     — _hyper_parameter_tuning in xgb_model.py and train.py
  * the lock-protected lazy model load as a small-step transition system
-/
import Mathlib

set_option maxRecDepth 100000

namespace MLGcp

/- ------------------------------------------------------------------ -/
/- Label mapping (xgb_model.py `target_label_mapping`, train.py copy)  -/
/- ------------------------------------------------------------------ -/

/-- The table `label_mapping = {1: 0, 2: 1, 3: 2, 9: 3}` accessed via
`label_mapping.get`: a Python `dict.get` returns `None` outside the
table, hence `Option`. -/
def label_mapping_get (y : ℤ) : Option ℤ :=
  if y = 1 then some 0
  else if y = 2 then some 1
  else if y = 3 then some 2
  else if y = 9 then some 3
  else none

/-- Function `target_label_mapping` maps the table over an array of
sparse labels via `np.vectorize(label_mapping.get)`. -/
def target_label_mapping (ys : List ℤ) : List (Option ℤ) :=
  ys.map label_mapping_get

/-- The inverse direction of the lookup table
(`_alt_target_class_mapping` order: dense 0,1,2,3 back to sparse 1,2,3,9). -/
def label_mapping_inverse (d : ℤ) : Option ℤ :=
  if d = 0 then some 1
  else if d = 1 then some 2
  else if d = 2 then some 3
  else if d = 3 then some 9
  else none

/-- Sparse labels recognised by the table. -/
def sparseLabels : List ℤ := [1, 2, 3, 9]

/- ------------------------------------------------------------------ -/
/- preprocess.py `preprocess_data`                                     -/
/- ------------------------------------------------------------------ -/

/-- Side effects the `preprocess_data` pipeline component could perform
(fetching from GCS, loading a DataFrame, ingesting into BigQuery). -/
inductive PreprocessEffect
  | fetchLatestFile
  | loadDataFrame
  | ingestIntoFeatureStore
  deriving DecidableEq, Repr

/-- Shallow embedding of `preprocess_data` (preprocess.py, lines 30-75 of
the component body): the body executes `return True` before any of the
helper definitions or the main fetch/transform/ingest logic, so a direct
translation of the reachable code is the constant `(true, [])`: it returns
`True` and performs no effect.  The value is paired with the list of
effects performed so that "reports success without performing any work"
is expressible. -/
def preprocess_data (bucket_name project_id region featurestore_id
    entity_type_id : String) : Bool × List PreprocessEffect :=
  (true, [])

/- ------------------------------------------------------------------ -/
/- predictor.py `_load_model`                                          -/
/- ------------------------------------------------------------------ -/

/-- The hard-coded fallback location in `_load_model`. -/
def MODEL_URI : String := "gs://mlops-gcs-bucket/models/xgb-model/"

/-- Global `GCS_MODEL_PATH = os.getenv('AIP_STORAGE_URI')`: `None` when
the variable is absent; modelled as the empty string so that the
truthiness test below is uniform. -/
def gcsModelPath (envAipStorageUri : Option String) : String :=
  match envAipStorageUri with
  | none => ""
  | some s => s

/-- Python truthiness test `not GCS_MODEL_PATH` for a `str`-or-`None`. -/
def pathUnset (envAipStorageUri : Option String) : Bool :=
  gcsModelPath envAipStorageUri = ""

/-- The storage location `_load_model` resolves:
the configured value, falling back to `MODEL_URI` when unset/empty. -/
def resolvedModelPath (envAipStorageUri : Option String) : String :=
  if pathUnset envAipStorageUri then MODEL_URI
  else gcsModelPath envAipStorageUri

/-- Split `parts = GCS_MODEL_PATH[5:].split("/", 1)`; bucket is
`parts[0]`, prefix is `parts[1]` when present else `""`. -/
def splitBucketPrefix (path : String) : String × String :=
  let rest := (path.toList.drop 5)
  let bucket := rest.takeWhile (fun c => c ≠ '/')
  let after := rest.dropWhile (fun c => c ≠ '/')
  match after with
  | [] => (String.mk bucket, "")
  | _ :: tl => (String.mk bucket, String.mk tl)

/-- Errors `_load_model` raises. -/
inductive LoadError
  | noFilesFound      -- `ValueError('No files found in the bucket.')`
  | noModelFileFound  -- `ValueError('No model file found in the bucket.')`
  deriving DecidableEq, Repr

/-- The model-file extension list `exts = ['.joblib']`. -/
def modelExts : List String := [".joblib"]

/-- Test `b.name.endswith(tuple(exts))`. -/
def hasModelExt (name : String) : Bool :=
  modelExts.any (fun e => e.data.isSuffixOf name.data)

/-- Shallow embedding of `_load_model` (predictor.py lines 78-132) on the
cold path (`xgb_model is None`).  The GCS listing is abstracted as a
function from (bucket, prefix) to the ordered list of blob names.  The
function resolves the location, lists blobs, fails when the listing is
empty, selects the FIRST blob whose name ends in `.joblib`, fails when
none matches, and otherwise returns that blob's name (the artifact that
is downloaded and deserialised). -/
def loadModel (envAipStorageUri : Option String)
    (listBlobs : String → String → List String) : Except LoadError String :=
  let path := resolvedModelPath envAipStorageUri
  let bp := splitBucketPrefix path
  let blobs := listBlobs bp.1 bp.2
  if blobs.isEmpty then
    .error .noFilesFound
  else
    match blobs.find? (fun b => hasModelExt b) with
    | none => .error .noModelFileFound
    | some b => .ok b

/-- The blob listing `_load_model` sees: the abstract GCS listing
applied at the bucket and prefix of the resolved location. -/
def blobsOf (envAipStorageUri : Option String)
    (listBlobs : String → String → List String) : List String :=
  let bp := splitBucketPrefix (resolvedModelPath envAipStorageUri)
  listBlobs bp.1 bp.2

/- ------------------------------------------------------------------ -/
/- MentalHealthData composite features (ml_inference_data.py, train.py)-/
/- ------------------------------------------------------------------ -/

/-- Python `int(x)` / pandas `astype(int)` on a numeric value:
truncation toward zero. -/
def pyInt (q : ℚ) : ℤ :=
  if 0 ≤ q then ⌊q⌋ else -⌊-q⌋

/-- Truncation toward zero, returned as a rational (pandas keeps the
column numeric after `astype(int)`; the value is integral). -/
def pyIntQ (q : ℚ) : ℚ := (pyInt q : ℚ)

/-- A single row of a pandas DataFrame: the ordered list of column
names together with the valuation of each column at this row.
Column-wise DataFrame operations act row-wise, so one row suffices to
model `_integrate_composite_features`. -/
@[ext]
structure DFrame where
  cols : List String
  val : String → ℚ

/-- Assignment `df[c] = v`: overwrites the column in place when it
exists, otherwise appends it at the end. -/
def DFrame.setCol (df : DFrame) (c : String) (v : ℚ) : DFrame where
  cols := if c ∈ df.cols then df.cols else df.cols ++ [c]
  val := fun x => if x = c then v else df.val x

/-- Shallow embedding of `MentalHealthData._integrate_composite_features`
(ml_inference_data.py lines 66-78 and its verbatim copy in train.py):
three column assignments, in source order, each computed from raw
columns.  The general-health interaction is
`df['genhlth'].astype(int) * df['physhlth']`, the income/education
interaction is `df['income3'].astype(int) * df['educa'].astype(int)`,
and the composite is the row mean of `['emtsuprt','addepev3','poorhlth']`. -/
def integrate_composite_features (df : DFrame) : DFrame :=
  let d1 := df.setCol "Physical_Mental_Interaction"
      (pyIntQ (df.val "genhlth") * df.val "physhlth")
  let d2 := d1.setCol "Income_Education_Interaction"
      (pyIntQ (d1.val "income3") * pyIntQ (d1.val "educa"))
  d2.setCol "Mental_Health_Composite"
      ((d2.val "emtsuprt" + d2.val "addepev3" + d2.val "poorhlth") / 3)

/-- The three derived column names, in the order they are appended. -/
def derivedCols : List String :=
  ["Physical_Mental_Interaction", "Income_Education_Interaction",
   "Mental_Health_Composite"]

/- ------------------------------------------------------------------ -/
/- predictor.py request handling                                       -/
/- ------------------------------------------------------------------ -/

/-- A JSON instance: an object mapping feature names to numeric values
(the request payloads carry integer survey codes). -/
abbrev Instance := List (String × ℤ)

/-- Key set of an instance object. -/
def keysOf (inst : Instance) : List String := inst.map Prod.fst

/-- Column names of `pd.DataFrame(data)` for a list of record objects:
the union of the keys, first-appearance order. -/
def colNames (data : List Instance) : List String :=
  (data.flatMap keysOf).dedup

/-- A DataFrame cell is NaN exactly when some row lacks some column, so
`astype(int)` succeeds iff every instance carries every column name
(`IntCastingNaNError` otherwise). -/
def astypeIntOk (data : List Instance) : Bool :=
  data.all fun inst => (colNames data).all fun c => (keysOf inst).contains c

/-- Reindexing `_df[EXPECTED_FEATURE_ORDER]` succeeds iff every expected
feature name is a column of the frame (`KeyError` otherwise). -/
def EXPECTED_FEATURE_ORDER : List String :=
  ["poorhlth", "physhlth", "genhlth", "diffwalk", "diffalon",
   "checkup1", "diffdres", "addepev3", "acedeprs", "sdlonely", "lsatisfy",
   "emtsuprt", "decide", "cdsocia1", "cddiscu1", "cimemlo1", "smokday2",
   "alcday4", "marijan1", "exeroft1", "usenow3", "firearm5", "income3",
   "educa", "employ1", "sex", "marital", "adult", "rrclass3", "qstlang",
   "state", "veteran3", "medcost1", "sdhbills", "sdhemply", "sdhfood1",
   "sdhstre1", "sdhutils", "sdhtrnsp", "cdhous1", "foodstmp", "pregnant",
   "asthnow", "havarth4", "chcscnc1", "chcocnc1", "diabete4", "chccopd3",
   "cholchk3", "bpmeds1", "bphigh6", "cvdstrk3", "cvdcrhd4", "chckdny2",
   "cholmed3"]

/-- Reindex check for `_df[EXPECTED_FEATURE_ORDER]`. -/
def reindexOk (data : List Instance) : Bool :=
  EXPECTED_FEATURE_ORDER.all fun f => (colNames data).contains f

/-- Exceptions the preprocessing steps can raise. -/
inductive PreprocessError
  | intCastingNaN  -- astype(int) over a frame with a NaN cell
  | keyError       -- reindex over a missing expected column
  deriving DecidableEq, Repr

/-- One reordered row as a single-row DataFrame: the columns are the 55
expected features in order, valued by lookup in the instance. -/
def dfOfInstance (inst : Instance) : DFrame where
  cols := EXPECTED_FEATURE_ORDER
  val := fun c => (((inst.lookup c).getD 0 : ℤ) : ℚ)

/-- The row a single instance contributes to `mh.get_data()`: the 55
reordered features followed by the three derived columns, read off from
the integrated frame in column order. -/
def rowOf (inst : Instance) : List ℚ :=
  let df := integrate_composite_features (dfOfInstance inst)
  df.cols.map df.val

/-- Shallow embedding of `_preprocess_input` (predictor.py lines
151-169): build the frame, cast to int, reorder the columns, and wrap in
`MentalHealthData`, which appends the composite features. -/
def _preprocess_input (data : List Instance) :
    Except PreprocessError (List (List ℚ)) :=
  if ¬ astypeIntOk data then .error .intCastingNaN
  else if ¬ reindexOk data then .error .keyError
  else .ok (data.map rowOf)

/-- Minimal JSON values, enough for the bodies `jsonify` builds. -/
inductive Json
  | bool (b : Bool)
  | str (s : String)
  | num (q : ℚ)
  | arr (xs : List Json)
  | obj (kvs : List (String × Json))

/-- The parsed top-level request object, as far as `predict` inspects
it: presence of the keys `features` and `instances`, plus whatever other
keys make the dict non-empty. -/
structure ReqBody where
  features : Option Instance
  instances : Option (List Instance)
  otherKeys : List String

/-- Python truthiness of the parsed body dict (`if not input_data`). -/
def bodyTruthy (b : ReqBody) : Bool :=
  b.features.isSome || b.instances.isSome || !b.otherKeys.isEmpty

/-- Key dispatch of `predict`: a `features` payload is wrapped into a
one-element batch; otherwise an `instances` payload is the batch;
otherwise the format is invalid. -/
def extractInstances (b : ReqBody) : Option (List Instance) :=
  match b.features with
  | some f => some [f]
  | none => b.instances

/-- An incoming request: its content type and its parsed JSON body
(`request.get_json(silent=True)` yields `None` on an unparsable body). -/
structure PredictRequest where
  contentType : String
  body : Option ReqBody

/-- Response of the catch-all exception handler in `predict`. -/
def serverErrorResponse : ℕ × Json :=
  (500, .obj [("success", .str "false"), ("error", .str "Server error occurred")])

/-- Shallow embedding of the `/predict` route (predictor.py lines
188-260).  The trained model is abstracted as a per-row scoring function
`model`; `xgb` scoring maps it over the rows of the prepared frame.  Any
exception raised below the validation checks (preprocessing failures,
the `input_data[0]` index error on an empty batch) is caught by the
catch-all handler and surfaced as the 500 response. -/
def predictRoute (model : List ℚ → ℚ) (req : PredictRequest) : ℕ × Json :=
  if req.contentType ≠ "application/json" then
    (415, .obj [("error", .str "Unsupported Media Type. Please use application/json")])
  else
    match req.body with
    | none => (400, .obj [("error", .str "No input data provided.")])
    | some b =>
      if ¬ bodyTruthy b then
        (400, .obj [("error", .str "No input data provided.")])
      else
        match extractInstances b with
        | none => (400, .obj [("error", .str "Invalid input data format.")])
        | some data =>
          match data with
          | [] => serverErrorResponse
          | inst0 :: _ =>
            if inst0.length ≠ 55 then
              (400, .obj [("error", .str "Invalid number of parameters.")])
            else
              match _preprocess_input data with
              | .error _ => serverErrorResponse
              | .ok rows =>
                (200, .obj [("success", .str "true"),
                            ("prediction", .arr (rows.map fun r => .num (model r)))])

/- ------------------------------------------------------------------ -/
/- Hyperparameter tuning (_hyper_parameter_tuning, two copies)         -/
/- ------------------------------------------------------------------ -/

/-- A candidate point proposed by the Bayesian optimizer: every
dimension is a float (the optimizer samples uniformly inside the
bounds), modelled as rationals. -/
structure RawParams where
  num_boost_round : ℚ
  max_depth : ℚ
  learning_rate : ℚ
  subsample : ℚ
  colsample_bytree : ℚ
  gamma : ℚ
  reg_alpha : ℚ
  reg_lambda : ℚ
  deriving DecidableEq, Repr

/-- The bounds dictionary `param_bounds` from the source. -/
def param_bounds : List (String × (ℚ × ℚ)) :=
  [("num_boost_round", (100, 300)),
   ("max_depth", (3, 10)),
   ("learning_rate", (1/100, 1/10)),
   ("subsample", (6/10, 1)),
   ("colsample_bytree", (6/10, 1)),
   ("gamma", (0, 5)),
   ("reg_alpha", (0, 1)),
   ("reg_lambda", (1, 5))]

/-- Field access of a candidate by bound-dictionary key. -/
def rawGet (p : RawParams) : String → ℚ
  | "num_boost_round" => p.num_boost_round
  | "max_depth" => p.max_depth
  | "learning_rate" => p.learning_rate
  | "subsample" => p.subsample
  | "colsample_bytree" => p.colsample_bytree
  | "gamma" => p.gamma
  | "reg_alpha" => p.reg_alpha
  | "reg_lambda" => p.reg_lambda
  | _ => 0

/-- A candidate lies inside the configured search space. -/
def rawInBounds (p : RawParams) : Prop :=
  ∀ kv ∈ param_bounds, kv.2.1 ≤ rawGet p kv.1 ∧ rawGet p kv.1 ≤ kv.2.2

/-- A Python numeric object: either an `int` (produced by `int(...)`)
or a `float` (produced by `float(...)` or left as sampled). -/
inductive PyNum
  | int (n : ℤ)
  | float (q : ℚ)
  deriving DecidableEq, Repr

/-- Numeric value of a Python number. -/
def PyNum.toQ : PyNum → ℚ
  | .int n => (n : ℚ)
  | .float q => q

/-- Whether a Python number is an `int` object. -/
def PyNum.isInt : PyNum → Bool
  | .int _ => true
  | .float _ => false

/-- The `best_params` dictionary after the post-search casts. -/
structure BestParams where
  num_boost_round : PyNum
  max_depth : PyNum
  learning_rate : PyNum
  subsample : PyNum
  colsample_bytree : PyNum
  gamma : PyNum
  reg_alpha : PyNum
  reg_lambda : PyNum
  deriving DecidableEq, Repr

/-- The post-search cast block of `_hyper_parameter_tuning`
(xgb_model.py lines 205-214, train.py lines 317-327): `int(...)` on
`max_depth`, `num_boost_round`, `gamma` and `reg_lambda`, `float(...)`
on the remaining dimensions. -/
def postSearchCast (p : RawParams) : BestParams where
  max_depth := .int (pyInt p.max_depth)
  num_boost_round := .int (pyInt p.num_boost_round)
  learning_rate := .float p.learning_rate
  subsample := .float p.subsample
  colsample_bytree := .float p.colsample_bytree
  gamma := .int (pyInt p.gamma)
  reg_alpha := .float p.reg_alpha
  reg_lambda := .int (pyInt p.reg_lambda)

/-- Exceptions a candidate evaluation (`xgb_eval`, i.e. `xgb.train`
plus prediction and scoring) can raise. -/
inductive TrainError
  | fitFailure      -- model construction / fitting raised
  | noCandidates    -- `optimizer.max` has no entry to subscript
  deriving DecidableEq, Repr

/-- Sequential maximization loop of `optimizer.maximize`: candidates
are evaluated in order; an exception raised inside the objective aborts
the whole search at that point; otherwise the best-scoring candidate is
retained. -/
def runMaximize (xgbEval : RawParams → Except TrainError ℚ) :
    List RawParams → Except TrainError (Option (RawParams × ℚ))
  | [] => .ok none
  | c :: rest => do
    let s ← xgbEval c
    let r ← runMaximize xgbEval rest
    match r with
    | none => pure (some (c, s))
    | some (c', s') => pure (if s < s' then some (c', s') else some (c, s))

/-- Shallow embedding of `_hyper_parameter_tuning` in xgb_model.py
(lines 109-218): the whole body sits inside `try: ... except Exception:
return None`, so any exception during the search — including a failing
candidate fit — yields `None`, never a partial configuration. -/
def hyper_parameter_tuning_model
    (xgbEval : RawParams → Except TrainError ℚ)
    (candidates : List RawParams) : Option BestParams :=
  match runMaximize xgbEval candidates with
  | .error _ => none
  | .ok none => none
  | .ok (some (p, _)) => some (postSearchCast p)

/-- Shallow embedding of the `_hyper_parameter_tuning` copy embedded in
the `train_model` pipeline component (train.py lines 225-329): the same
search WITHOUT the `try/except` wrapper, so an exception raised by a
failing candidate fit propagates to the caller. -/
def hyper_parameter_tuning_train
    (xgbEval : RawParams → Except TrainError ℚ)
    (candidates : List RawParams) : Except TrainError BestParams := do
  match ← runMaximize xgbEval candidates with
  | none => .error .noCandidates
  | some (p, _) => pure (postSearchCast p)

/- ------------------------------------------------------------------ -/
/- Lock-protected lazy model load (predictor.py)                       -/
/- ------------------------------------------------------------------ -/

/-- Program points of one request thread executing the protected region
of `predict`: waiting on `model_lock`, testing `xgb_model is None`
inside `_load_model`, performing the artifact load, leaving the `with`
block, done. -/
inductive PC
  | acquire
  | test
  | doLoad
  | unlock
  | done
  deriving DecidableEq, Repr

/-- Shared serving-process state for `n` concurrent first-time callers:
the owner of `model_lock`, whether the `xgb_model` global is loaded, a
count of underlying artifact loads performed, and each thread's program
point. -/
structure ServeState (n : ℕ) where
  owner : Option (Fin n)
  loaded : Bool
  loads : ℕ
  pc : Fin n → PC

/-- All threads about to make their first call into `predict`, no model
loaded: the process-start state. -/
def initState (n : ℕ) : ServeState n :=
  { owner := none, loaded := false, loads := 0, pc := fun _ => .acquire }

/-- Interleaving small-step semantics of the serving threads.  A thread
can enter `with model_lock` only when no thread holds the lock; inside,
it tests the `xgb_model` global, loads the artifact exactly when the
global is still `None`, and releases the lock on exit. -/
inductive ServeStep {n : ℕ} : ServeState n → ServeState n → Prop
  | acquire (t : Fin n) (s : ServeState n) :
      s.pc t = .acquire → s.owner = none →
      ServeStep s { s with owner := some t, pc := Function.update s.pc t .test }
  | testLoaded (t : Fin n) (s : ServeState n) :
      s.pc t = .test → s.owner = some t → s.loaded = true →
      ServeStep s { s with pc := Function.update s.pc t .unlock }
  | testUnloaded (t : Fin n) (s : ServeState n) :
      s.pc t = .test → s.owner = some t → s.loaded = false →
      ServeStep s { s with pc := Function.update s.pc t .doLoad }
  | load (t : Fin n) (s : ServeState n) :
      s.pc t = .doLoad → s.owner = some t →
      ServeStep s { s with loaded := true, loads := s.loads + 1,
                           pc := Function.update s.pc t .unlock }
  | unlock (t : Fin n) (s : ServeState n) :
      s.pc t = .unlock → s.owner = some t →
      ServeStep s { s with owner := none, pc := Function.update s.pc t .done }

/-- States reachable from process start by any interleaving. -/
def ServeReachable {n : ℕ} (s : ServeState n) : Prop :=
  Relation.ReflTransGen ServeStep (initState n) s

/-- Invariant of the serving transition system: the load count mirrors
the loaded flag, a thread inside the protected region owns the lock,
a thread about to load saw the model unloaded, and a thread at or past
the lock release has seen the model loaded. -/
def ServeInv {n : ℕ} (s : ServeState n) : Prop :=
  (s.loads = if s.loaded then 1 else 0) ∧
  (∀ t, s.pc t = .test ∨ s.pc t = .doLoad ∨ s.pc t = .unlock →
      s.owner = some t) ∧
  (∀ t, s.pc t = .doLoad → s.loaded = false) ∧
  (∀ t, s.pc t = .unlock ∨ s.pc t = .done → s.loaded = true)

/-- First state of the C1 witness trace: thread 0 acquires the lock. -/
def wS1 : ServeState 2 :=
  { initState 2 with
    owner := some 0,
    pc := Function.update (initState 2).pc 0 .test }

/-- Second state: thread 0 sees the model unloaded. -/
def wS2 : ServeState 2 :=
  { wS1 with
    pc := Function.update wS1.pc 0 .doLoad }

/-- Third state: thread 0 performs the artifact load. -/
def wS3 : ServeState 2 :=
  { wS2 with
    loaded := true,
    loads := wS2.loads + 1,
    pc := Function.update wS2.pc 0 .unlock }

/-- Fourth state: thread 0 releases the lock and completes. -/
def wS4 : ServeState 2 :=
  { wS3 with
    owner := none,
    pc := Function.update wS3.pc 0 .done }

/-- Input table for the C5 witness: the 55 raw features, with the
general-health indicator set to 2 and every other feature to 1. -/
def wdf : DFrame where
  cols := EXPECTED_FEATURE_ORDER
  val := fun c => if c = "genhlth" then 2 else 1

/-- Instance carrying the 55 expected feature names, each valued 1. -/
def goodInstance : Instance :=
  EXPECTED_FEATURE_ORDER.map fun nm => (nm, (1 : ℤ))

/-- Instance with 55 keys in which the required name poorhlth was
replaced by a bogus name. -/
def bogusInstance : Instance :=
  ("bogus", (1 : ℤ)) ::
    (EXPECTED_FEATURE_ORDER.drop 1).map fun nm => (nm, (1 : ℤ))

/-- Instance carrying only 54 of the expected keys. -/
def shortInstance : Instance :=
  (EXPECTED_FEATURE_ORDER.drop 1).map fun nm => (nm, (1 : ℤ))

/- ================================================================== -/
/- Theorems                                                            -/
/- ================================================================== -/

/-- C10: the preprocess_data pipeline component returns True
unconditionally for every input: an early return precedes all of its
fetching, transformation, and ingestion logic, so the component reports
success without performing any work or raising on any input. -/
theorem preprocess_data_constant_true (bucket_name project_id region
    featurestore_id entity_type_id : String) :
    preprocess_data bucket_name project_id region featurestore_id
      entity_type_id = (true, []) := rfl

/-- Round trip of the label table on one in-domain label. -/
theorem label_round_trip_single :
    ∀ y ∈ sparseLabels,
      (label_mapping_get y).bind label_mapping_inverse = some y := by
  intro y hy
  simp only [sparseLabels, List.mem_cons, List.mem_singleton,
    List.not_mem_nil, or_false] at hy
  rcases hy with rfl | rfl | rfl | rfl <;> decide

/-- C4: the sparse-to-dense label mapping is exactly the injective
table 1 to 0, 2 to 1, 3 to 2, 9 to 3; for every array of labels drawn
from the four sparse codes, applying the mapping and then the inverse
of the lookup table recovers the original sparse labels exactly. -/
theorem label_mapping_round_trip :
    (label_mapping_get 1 = some 0 ∧ label_mapping_get 2 = some 1 ∧
     label_mapping_get 3 = some 2 ∧ label_mapping_get 9 = some 3) ∧
    (∀ a ∈ sparseLabels, ∀ b ∈ sparseLabels,
        label_mapping_get a = label_mapping_get b → a = b) ∧
    (∀ ys : List ℤ, (∀ y ∈ ys, y ∈ sparseLabels) →
        (target_label_mapping ys).map (fun o => o.bind label_mapping_inverse)
          = ys.map some) := by
  refine ⟨by decide, by decide, ?_⟩
  intro ys hys
  induction ys with
  | nil => rfl
  | cons y tl ih =>
    have hy := hys y (List.mem_cons_self y tl)
    have htl := ih fun z hz => hys z (List.mem_cons_of_mem y hz)
    simp only [target_label_mapping, List.map_cons, List.map_map] at htl ⊢
    exact congrArg₂ List.cons (label_round_trip_single y hy) htl

/-- C4 witness: round trip on a concrete label array. -/
theorem label_mapping_round_trip_witness :
    (target_label_mapping [9, 1, 3, 2, 1]).map
        (fun o => o.bind label_mapping_inverse)
      = ([9, 1, 3, 2, 1] : List ℤ).map some :=
  label_mapping_round_trip.2.2 [9, 1, 3, 2, 1] (by decide)

/-- Unfolding of loadModel through the listing abstraction. -/
theorem loadModel_eq (env : Option String)
    (listing : String → String → List String) :
    loadModel env listing =
      (if (blobsOf env listing).isEmpty then .error .noFilesFound
       else
         match (blobsOf env listing).find? (fun b => hasModelExt b) with
         | none => .error .noModelFileFound
         | some b => .ok b) := rfl

/-- Find skips a prefix of non-matching names. -/
theorem find?_first_match (p : String → Bool) (pre : List String)
    (b : String) (post : List String) (hb : p b = true)
    (hpre : ∀ x ∈ pre, p x = false) :
    (pre ++ b :: post).find? p = some b := by
  induction pre with
  | nil => simp [List.find?, hb]
  | cons x xs ih =>
    have hx := hpre x (List.mem_cons_self x xs)
    simp only [List.cons_append, List.find?, hx]
    exact ih fun z hz => hpre z (List.mem_cons_of_mem x hz)

/-- C9: the model load algorithm resolves the storage location from the
configured environment value, falling back to the hard-coded default
location when unset; it selects the first listed artifact whose name
ends with the joblib extension, and raises an error exactly when the
location lists no artifacts or no artifact name matches the
extension. -/
theorem load_model_resolution_and_errors :
    (resolvedModelPath none = MODEL_URI ∧
     resolvedModelPath (some "") = MODEL_URI) ∧
    (∀ uri : String, uri ≠ "" → resolvedModelPath (some uri) = uri) ∧
    (∀ nm : String, hasModelExt nm = ".joblib".data.isSuffixOf nm.data) ∧
    (∀ env listing,
      (loadModel env listing = .error .noFilesFound ↔
          blobsOf env listing = []) ∧
      (loadModel env listing = .error .noModelFileFound ↔
          blobsOf env listing ≠ [] ∧
          ∀ b ∈ blobsOf env listing, hasModelExt b = false) ∧
      (∀ pre b post, blobsOf env listing = pre ++ b :: post →
          hasModelExt b = true → (∀ x ∈ pre, hasModelExt x = false) →
          loadModel env listing = .ok b)) := by
  refine ⟨⟨rfl, rfl⟩, ?_, ?_, ?_⟩
  · intro uri h
    simp [resolvedModelPath, pathUnset, gcsModelPath, h]
  · intro nm
    simp [hasModelExt, modelExts]
  · intro env listing
    refine ⟨?_, ?_, ?_⟩
    · rw [loadModel_eq]
      cases hl : blobsOf env listing with
      | nil => simp
      | cons x xs =>
        simp only [List.isEmpty_cons, Bool.false_eq_true, if_false]
        constructor
        · intro h
          cases hf : (x :: xs).find? (fun b => hasModelExt b) <;>
            rw [hf] at h <;> cases h
        · intro h; cases h
    · rw [loadModel_eq]
      cases hl : blobsOf env listing with
      | nil => simp
      | cons x xs =>
        simp only [List.isEmpty_cons, Bool.false_eq_true, if_false]
        cases hf : (x :: xs).find? (fun b => hasModelExt b) with
        | none =>
          simp only [hf]
          constructor
          · intro _
            refine ⟨by simp, fun b hb => ?_⟩
            have := List.find?_eq_none.mp hf b hb
            simpa using this
          · intro _; trivial
        | some b =>
          simp only [hf]
          constructor
          · intro h; cases h
          · rintro ⟨-, hall⟩
            have hp := List.find?_some hf
            have := hall b (List.mem_of_find?_eq_some hf)
            rw [this] at hp
            cases hp
    · intro pre b post hsplit hb hpre
      rw [loadModel_eq, hsplit]
      have hie : (pre ++ b :: post).isEmpty = false := by
        cases pre <;> simp
      rw [hie, find?_first_match _ pre b post hb hpre]
      simp

/-- C9 witness: with the environment unset and a bucket listing holding
a text file before two joblib files, the first joblib artifact is
selected. -/
theorem load_model_resolution_witness :
    loadModel none (fun _ _ => ["a.txt", "m.joblib", "z.joblib"])
      = .ok "m.joblib" :=
  (load_model_resolution_and_errors.2.2.2
      none (fun _ _ => ["a.txt", "m.joblib", "z.joblib"])).2.2
    ["a.txt"] "m.joblib" ["z.joblib"] rfl (by decide) (by decide)

/-- Truncation is the identity on integral rationals. -/
theorem pyIntQ_intCast (n : ℤ) : pyIntQ ((n : ℚ)) = (n : ℚ) := by
  unfold pyIntQ pyInt
  by_cases h : (0 : ℚ) ≤ (n : ℚ)
  · simp [h]
  · have hc : (-(n : ℚ)) = (((-n : ℤ)) : ℚ) := by push_cast; ring
    rw [if_neg h, hc, Int.floor_intCast]
    push_cast
    ring

/-- Values of columns other than the three derived ones are untouched. -/
theorem integrate_val_frame (df : DFrame) (c : String)
    (hc : c ∉ derivedCols) :
    (integrate_composite_features df).val c = df.val c := by
  have h1 : ¬ c = "Physical_Mental_Interaction" := fun h => hc (by
    rw [h]; decide)
  have h2 : ¬ c = "Income_Education_Interaction" := fun h => hc (by
    rw [h]; decide)
  have h3 : ¬ c = "Mental_Health_Composite" := fun h => hc (by
    rw [h]; decide)
  simp [integrate_composite_features, DFrame.setCol, h1, h2, h3]

/-- Value written to the general-health interaction column. -/
theorem integrate_val_PMI (df : DFrame) :
    (integrate_composite_features df).val "Physical_Mental_Interaction"
      = pyIntQ (df.val "genhlth") * df.val "physhlth" := by
  simp [integrate_composite_features, DFrame.setCol]

/-- Value written to the income/education interaction column. -/
theorem integrate_val_IEI (df : DFrame) :
    (integrate_composite_features df).val "Income_Education_Interaction"
      = pyIntQ (df.val "income3") * pyIntQ (df.val "educa") := by
  simp [integrate_composite_features, DFrame.setCol]

/-- Value written to the mental-health composite column. -/
theorem integrate_val_MHC (df : DFrame) :
    (integrate_composite_features df).val "Mental_Health_Composite"
      = (df.val "emtsuprt" + df.val "addepev3" + df.val "poorhlth") / 3 := by
  simp [integrate_composite_features, DFrame.setCol]

/-- The assigned column is a member of the columns after assignment. -/
theorem setCol_mem_cols (df : DFrame) (c : String) (v : ℚ) :
    c ∈ (df.setCol c v).cols := by
  unfold DFrame.setCol
  by_cases h : c ∈ df.cols <;> simp [h]

/-- Column membership is preserved by an assignment. -/
theorem setCol_mem_cols_of_mem (df : DFrame) (c x : String) (v : ℚ)
    (hx : x ∈ df.cols) : x ∈ (df.setCol c v).cols := by
  unfold DFrame.setCol
  by_cases h : c ∈ df.cols <;> simp [h, hx]

/-- Assigning to an existing column leaves the column list unchanged. -/
theorem setCol_cols_of_mem (df : DFrame) (c : String) (v : ℚ)
    (hc : c ∈ df.cols) : (df.setCol c v).cols = df.cols := by
  simp [DFrame.setCol, hc]

/-- The three derived names are columns of the integrated frame. -/
theorem integrate_mem_derived (df : DFrame) :
    ∀ c ∈ derivedCols, c ∈ (integrate_composite_features df).cols := by
  intro c hc
  simp only [derivedCols, List.mem_cons, List.not_mem_nil, or_false] at hc
  unfold integrate_composite_features
  rcases hc with rfl | rfl | rfl
  · exact setCol_mem_cols_of_mem _ _ _ _
      (setCol_mem_cols_of_mem _ _ _ _ (setCol_mem_cols _ _ _))
  · exact setCol_mem_cols_of_mem _ _ _ _ (setCol_mem_cols _ _ _)
  · exact setCol_mem_cols _ _ _

/-- Integrating composite features is idempotent. -/
theorem integrate_idem (df : DFrame) :
    integrate_composite_features (integrate_composite_features df)
      = integrate_composite_features df := by
  have hP := integrate_mem_derived df "Physical_Mental_Interaction" (by decide)
  have hI := integrate_mem_derived df "Income_Education_Interaction" (by decide)
  have hM := integrate_mem_derived df "Mental_Health_Composite" (by decide)
  ext1
  · -- the column list is unchanged by the second pass
    show (integrate_composite_features
        (integrate_composite_features df)).cols
      = (integrate_composite_features df).cols
    unfold integrate_composite_features
    rw [setCol_cols_of_mem, setCol_cols_of_mem, setCol_cols_of_mem]
    · exact hP
    · exact setCol_mem_cols_of_mem _ _ _ _ hI
    · exact setCol_mem_cols_of_mem _ _ _ _
        (setCol_mem_cols_of_mem _ _ _ _ hM)
  · -- every value is rewritten with an identical recomputation
    funext x
    by_cases h3 : x = "Mental_Health_Composite"
    · subst h3
      rw [integrate_val_MHC, integrate_val_MHC,
        integrate_val_frame _ _ (by decide),
        integrate_val_frame _ _ (by decide),
        integrate_val_frame _ _ (by decide)]
    · by_cases h2 : x = "Income_Education_Interaction"
      · subst h2
        rw [integrate_val_IEI, integrate_val_IEI,
          integrate_val_frame _ _ (by decide),
          integrate_val_frame _ _ (by decide)]
      · by_cases h1 : x = "Physical_Mental_Interaction"
        · subst h1
          rw [integrate_val_PMI, integrate_val_PMI,
            integrate_val_frame _ _ (by decide),
            integrate_val_frame _ _ (by decide)]
        · rw [integrate_val_frame]
          simp [derivedCols, h1, h2, h3]

/-- C5: the composite feature deriver is a deterministic pure function
of the raw columns: on every valid input table it appends exactly the
three derived columns — the product of the two general-health
indicators, the product of the income and education codes, and the mean
of the three mental-health indicator columns — leaves every other
column unchanged, and running it twice on the same input yields
identical derived values (idempotence). -/
theorem composite_feature_deriver (df : DFrame)
    (hnew : ∀ c ∈ derivedCols, c ∉ df.cols)
    (hint : ∀ c ∈ (["genhlth", "income3", "educa"] : List String),
        ∃ n : ℤ, df.val c = (n : ℚ)) :
    (integrate_composite_features df).cols = df.cols ++ derivedCols ∧
    (integrate_composite_features df).val "Physical_Mental_Interaction"
        = df.val "genhlth" * df.val "physhlth" ∧
    (integrate_composite_features df).val "Income_Education_Interaction"
        = df.val "income3" * df.val "educa" ∧
    (integrate_composite_features df).val "Mental_Health_Composite"
        = (df.val "emtsuprt" + df.val "addepev3" + df.val "poorhlth") / 3 ∧
    (∀ c, c ∉ derivedCols →
        (integrate_composite_features df).val c = df.val c) ∧
    integrate_composite_features (integrate_composite_features df)
        = integrate_composite_features df := by
  obtain ⟨ng, hg⟩ := hint "genhlth" (by decide)
  obtain ⟨ni, hi⟩ := hint "income3" (by decide)
  obtain ⟨ne, he⟩ := hint "educa" (by decide)
  have h1 := hnew "Physical_Mental_Interaction" (by decide)
  have h2 := hnew "Income_Education_Interaction" (by decide)
  have h3 := hnew "Mental_Health_Composite" (by decide)
  refine ⟨?_, ?_, ?_, ?_, integrate_val_frame df, integrate_idem df⟩
  · unfold integrate_composite_features
    rw [DFrame.setCol, DFrame.setCol, DFrame.setCol]
    simp only [h1, if_false]
    have m2 : "Income_Education_Interaction"
        ∉ df.cols ++ ["Physical_Mental_Interaction"] := by
      simp [h2]
    have m3 : "Mental_Health_Composite"
        ∉ df.cols ++ ["Physical_Mental_Interaction"]
          ++ ["Income_Education_Interaction"] := by
      simp [h3]
    simp only [m2, if_false, m3, derivedCols]
    simp
  · rw [integrate_val_PMI, hg, pyIntQ_intCast]
  · rw [integrate_val_IEI, hi, he, pyIntQ_intCast, pyIntQ_intCast]
  · exact integrate_val_MHC df

/-- C5 witness: the deriver on a concrete table. -/
theorem composite_feature_deriver_witness :
    (integrate_composite_features wdf).cols
        = EXPECTED_FEATURE_ORDER ++ derivedCols ∧
    (integrate_composite_features wdf).val "Physical_Mental_Interaction"
        = 2 ∧
    (integrate_composite_features wdf).val "Mental_Health_Composite"
        = 1 := by
  have h := composite_feature_deriver wdf (by decide)
    (by
      intro c hc
      simp only [List.mem_cons, List.not_mem_nil, or_false] at hc
      rcases hc with rfl | rfl | rfl
      · exact ⟨2, by simp [wdf]⟩
      · exact ⟨1, by simp [wdf]⟩
      · exact ⟨1, by simp [wdf]⟩)
  refine ⟨h.1, ?_, ?_⟩
  · rw [h.2.1]; simp [wdf]
  · rw [h.2.2.2.1]; simp [wdf]
    norm_num

/-- Truncation respects an integer lower bound below the value. -/
theorem le_pyInt_of_le (lo : ℤ) (q : ℚ) (h0 : 0 ≤ lo)
    (h : (lo : ℚ) ≤ q) : lo ≤ pyInt q := by
  have hq : (0 : ℚ) ≤ q := le_trans (by exact_mod_cast h0) h
  rw [pyInt, if_pos hq]
  exact Int.le_floor.mpr h

/-- Truncation respects an integer upper bound above the value. -/
theorem pyInt_le_of_le (hi : ℤ) (q : ℚ) (h0 : (0 : ℚ) ≤ q)
    (h : q ≤ (hi : ℚ)) : pyInt q ≤ hi := by
  rw [pyInt, if_pos h0]
  calc ⌊q⌋ ≤ ⌊(hi : ℚ)⌋ := Int.floor_le_floor h
    _ = hi := Int.floor_intCast hi

/-- C7 (amended): the returned configuration lies within the fixed
bounds, and after the search the conceptually integral dimensions
(max depth, boosting rounds) are truncated to integers, the learning
rate, subsample ratios and L1 term are cast to floats, but the gamma
and L2 terms are ALSO truncated to integers rather than cast to
floats. -/
theorem hyperparameter_casts_and_bounds (p : RawParams)
    (hb : rawInBounds p) :
    ((postSearchCast p).max_depth = .int (pyInt p.max_depth) ∧
     (postSearchCast p).num_boost_round = .int (pyInt p.num_boost_round) ∧
     (postSearchCast p).gamma = .int (pyInt p.gamma) ∧
     (postSearchCast p).reg_lambda = .int (pyInt p.reg_lambda) ∧
     (postSearchCast p).learning_rate = .float p.learning_rate ∧
     (postSearchCast p).subsample = .float p.subsample ∧
     (postSearchCast p).colsample_bytree = .float p.colsample_bytree ∧
     (postSearchCast p).reg_alpha = .float p.reg_alpha) ∧
    (100 ≤ (postSearchCast p).num_boost_round.toQ ∧
      (postSearchCast p).num_boost_round.toQ ≤ 300) ∧
    (3 ≤ (postSearchCast p).max_depth.toQ ∧
      (postSearchCast p).max_depth.toQ ≤ 10) ∧
    (1/100 ≤ (postSearchCast p).learning_rate.toQ ∧
      (postSearchCast p).learning_rate.toQ ≤ 1/10) ∧
    (6/10 ≤ (postSearchCast p).subsample.toQ ∧
      (postSearchCast p).subsample.toQ ≤ 1) ∧
    (6/10 ≤ (postSearchCast p).colsample_bytree.toQ ∧
      (postSearchCast p).colsample_bytree.toQ ≤ 1) ∧
    (0 ≤ (postSearchCast p).gamma.toQ ∧
      (postSearchCast p).gamma.toQ ≤ 5) ∧
    (0 ≤ (postSearchCast p).reg_alpha.toQ ∧
      (postSearchCast p).reg_alpha.toQ ≤ 1) ∧
    (1 ≤ (postSearchCast p).reg_lambda.toQ ∧
      (postSearchCast p).reg_lambda.toQ ≤ 5) := by
  have hnbr := hb ("num_boost_round", (100, 300)) (by simp [param_bounds])
  have hmd := hb ("max_depth", (3, 10)) (by simp [param_bounds])
  have hlr := hb ("learning_rate", (1/100, 1/10)) (by simp [param_bounds])
  have hss := hb ("subsample", (6/10, 1)) (by simp [param_bounds])
  have hcs := hb ("colsample_bytree", (6/10, 1)) (by simp [param_bounds])
  have hg := hb ("gamma", (0, 5)) (by simp [param_bounds])
  have ha := hb ("reg_alpha", (0, 1)) (by simp [param_bounds])
  have hl := hb ("reg_lambda", (1, 5)) (by simp [param_bounds])
  simp only [rawGet] at hnbr hmd hlr hss hcs hg ha hl
  simp only [postSearchCast, PyNum.toQ]
  refine ⟨⟨trivial, trivial, trivial, trivial, trivial, trivial, trivial,
    trivial⟩, ?_, ?_, ?_, ?_, ?_, ?_, ?_, ?_⟩
  · constructor
    · exact_mod_cast le_pyInt_of_le 100 _ (by norm_num)
        (by exact_mod_cast hnbr.1)
    · exact_mod_cast pyInt_le_of_le 300 _
        (le_trans (by norm_num) hnbr.1) (by exact_mod_cast hnbr.2)
  · constructor
    · exact_mod_cast le_pyInt_of_le 3 _ (by norm_num)
        (by exact_mod_cast hmd.1)
    · exact_mod_cast pyInt_le_of_le 10 _
        (le_trans (by norm_num) hmd.1) (by exact_mod_cast hmd.2)
  · exact hlr
  · exact hss
  · exact hcs
  · constructor
    · exact_mod_cast le_pyInt_of_le 0 _ (by norm_num)
        (by exact_mod_cast hg.1)
    · exact_mod_cast pyInt_le_of_le 5 _ hg.1 (by exact_mod_cast hg.2)
  · exact ha
  · constructor
    · exact_mod_cast le_pyInt_of_le 1 _ (by norm_num)
        (by exact_mod_cast hl.1)
    · exact_mod_cast pyInt_le_of_le 5 _
        (le_trans (by norm_num) hl.1) (by exact_mod_cast hl.2)

/-- C7 witness: the casts and bounds at an in-bounds configuration. -/
theorem hyperparameter_casts_and_bounds_witness :
    (postSearchCast ⟨200, 5, 1/20, 4/5, 7/10, 5/2, 1/2, 3⟩).max_depth
        = .int (pyInt 5) ∧
    100 ≤ (postSearchCast
        ⟨200, 5, 1/20, 4/5, 7/10, 5/2, 1/2, 3⟩).num_boost_round.toQ := by
  have h := hyperparameter_casts_and_bounds
    ⟨200, 5, 1/20, 4/5, 7/10, 5/2, 1/2, 3⟩
    (by intro kv hkv; fin_cases hkv <;> norm_num [rawGet])
  exact ⟨h.1.1, h.2.1.1⟩

/-- C7 counterexample: at an in-bounds search result with gamma 5/2,
the post-search cast truncates gamma to the integer 2 instead of
keeping the floating-point value, so the continuous gamma dimension is
not cast to its natural numeric type. -/
theorem gamma_truncated_not_float :
    rawInBounds ⟨200, 5, 1/20, 4/5, 7/10, 5/2, 1/2, 3⟩ ∧
    (postSearchCast ⟨200, 5, 1/20, 4/5, 7/10, 5/2, 1/2, 3⟩).gamma
        = PyNum.int 2 ∧
    (postSearchCast ⟨200, 5, 1/20, 4/5, 7/10, 5/2, 1/2, 3⟩).gamma.isInt
        = true ∧
    (postSearchCast ⟨200, 5, 1/20, 4/5, 7/10, 5/2, 1/2, 3⟩).gamma.toQ
        ≠ (5/2 : ℚ) := by
  have hfl : pyInt (5/2 : ℚ) = 2 := by
    rw [pyInt, if_pos (by norm_num)]
    rw [Int.floor_eq_iff]
    constructor <;> norm_num
  have hg2 : (postSearchCast
      ⟨200, 5, 1/20, 4/5, 7/10, 5/2, 1/2, 3⟩).gamma = PyNum.int 2 := by
    show PyNum.int (pyInt (5/2 : ℚ)) = PyNum.int 2
    rw [hfl]
  refine ⟨by intro kv hkv; fin_cases hkv <;> norm_num [rawGet],
    hg2, ?_, ?_⟩
  · rw [hg2]; rfl
  · rw [hg2]
    show ((2 : ℤ) : ℚ) ≠ 5/2
    norm_num

/-- Errors raised by a candidate evaluation abort the sequential
search at that candidate. -/
theorem runMaximize_error_on_failing_candidate
    (ev : RawParams → Except TrainError ℚ) (pre : List RawParams)
    (c : RawParams) (post : List RawParams) (e : TrainError)
    (hpre : ∀ x ∈ pre, ∃ s, ev x = .ok s) (hc : ev c = .error e) :
    runMaximize ev (pre ++ c :: post) = .error e := by
  induction pre with
  | nil =>
    simp only [List.nil_append, runMaximize, hc]
    rfl
  | cons x xs ih =>
    obtain ⟨s, hs⟩ := hpre x (List.mem_cons_self x xs)
    have ih' := ih fun z hz => hpre z (List.mem_cons_of_mem x hz)
    show (do
        let s0 ← ev x
        let r ← runMaximize ev (xs ++ c :: post)
        match r with
        | none => pure (some (x, s0))
        | some (c', s') =>
            pure (if s0 < s' then some (c', s') else some (x, s0))) = .error e
    rw [hs]
    show (do
        let r ← runMaximize ev (xs ++ c :: post)
        match r with
        | none => pure (some (x, s))
        | some (c', s') =>
            pure (if s < s' then some (c', s') else some (x, s))) = .error e
    rw [ih']
    rfl

/-- C8 (amended): in the standalone model module, when model
construction or fitting fails for a candidate configuration reached
during the hyperparameter search, the optimizer returns no result at
all — never a partial or best-so-far configuration.  (The copy of the
search embedded in the pipeline training component instead propagates
the exception; see the counterexample.) -/
theorem tuning_failure_returns_none
    (ev : RawParams → Except TrainError ℚ) (pre : List RawParams)
    (c : RawParams) (post : List RawParams) (e : TrainError)
    (hpre : ∀ x ∈ pre, ∃ s, ev x = .ok s) (hc : ev c = .error e) :
    hyper_parameter_tuning_model ev (pre ++ c :: post) = none := by
  unfold hyper_parameter_tuning_model
  rw [runMaximize_error_on_failing_candidate ev pre c post e hpre hc]

/-- C8 witness: a failing first candidate yields no result. -/
theorem tuning_failure_returns_none_witness :
    hyper_parameter_tuning_model (fun _ => .error .fitFailure)
      [⟨200, 5, 1/20, 4/5, 7/10, 5/2, 1/2, 3⟩] = none :=
  tuning_failure_returns_none (fun _ => .error .fitFailure) []
    ⟨200, 5, 1/20, 4/5, 7/10, 5/2, 1/2, 3⟩ [] .fitFailure
    (by intro x hx; cases hx) rfl

/-- C8 counterexample: the copy of the search inside the pipeline
training component has no try/except wrapper, so a failing candidate
fit propagates the exception to the enclosing component instead of
returning a no-result value. -/
theorem train_tuning_propagates_failure :
    hyper_parameter_tuning_train (fun _ => .error .fitFailure)
      [⟨200, 5, 1/20, 4/5, 7/10, 5/2, 1/2, 3⟩] = .error .fitFailure := rfl

/-- A body from which a batch was extracted is a truthy dict. -/
theorem bodyTruthy_of_extract (b : ReqBody) (data : List Instance)
    (h : extractInstances b = some data) : bodyTruthy b = true := by
  unfold extractInstances at h
  unfold bodyTruthy
  cases hf : b.features with
  | some f => simp
  | none =>
    rw [hf] at h
    have h' : b.instances = some data := h
    simp [h']

/-- A column that some instance lacks makes the int cast fail. -/
theorem astypeIntOk_eq_false_of (data : List Instance) (inst : Instance)
    (hinst : inst ∈ data) (c : String) (hc : c ∈ colNames data)
    (hck : c ∉ keysOf inst) : astypeIntOk data = false := by
  rw [astypeIntOk]
  rw [List.all_eq_false]
  refine ⟨inst, hinst, ?_⟩
  intro hall
  rw [List.all_eq_true] at hall
  exact hck (List.elem_iff.mp (hall c hc))

/-- Any key of any instance is a column of the frame. -/
theorem mem_colNames_of_mem_keys (data : List Instance) (inst : Instance)
    (hinst : inst ∈ data) (c : String) (hc : c ∈ keysOf inst) :
    c ∈ colNames data := by
  rw [colNames, List.mem_dedup, List.mem_flatMap]
  exact ⟨inst, hinst, hc⟩

/-- A batch in which some instance misses some expected feature name
fails preprocessing: either the int cast (when some other instance
carries the column) or the reindex (when no instance does). -/
theorem preprocess_error_of_missing (data : List Instance)
    (hmiss : ∃ inst ∈ data, ∃ f ∈ EXPECTED_FEATURE_ORDER, f ∉ keysOf inst) :
    ∃ e, _preprocess_input data = .error e := by
  obtain ⟨inst, hinst, f, hf, hfk⟩ := hmiss
  by_cases hc : f ∈ colNames data
  · have hA := astypeIntOk_eq_false_of data inst hinst f hc hfk
    exact ⟨.intCastingNaN, by simp [_preprocess_input, hA]⟩
  · have hR : reindexOk data = false := by
      rw [reindexOk, List.all_eq_false]
      refine ⟨f, hf, ?_⟩
      intro hcon
      exact hc (List.elem_iff.mp hcon)
    cases hA : astypeIntOk data with
    | false => exact ⟨.intCastingNaN, by simp [_preprocess_input, hA]⟩
    | true => exact ⟨.keyError, by simp [_preprocess_input, hA, hR]⟩

/-- When the early validation passes but preprocessing raises, the
route answers with the catch-all 500 response. -/
theorem predictRoute_500 (m : List ℚ → ℚ) (b : ReqBody)
    (inst0 : Instance) (rest : List Instance)
    (hex : extractInstances b = some (inst0 :: rest))
    (hlen : inst0.length = 55) (e : PreprocessError)
    (hpre : _preprocess_input (inst0 :: rest) = .error e) :
    predictRoute m ⟨"application/json", some b⟩ = serverErrorResponse := by
  have htr := bodyTruthy_of_extract b _ hex
  simp [predictRoute, htr, hex, hlen, hpre]

/-- C2 (amended): for any batch in which at least one instance is
missing a required feature name (and which passes the upfront checks:
JSON content type, truthy body, recognised shape, first instance of
length 55), the route rejects the entire batch — no instance is scored
and no prediction is returned — but the rejection surfaces as the 500
server-error response of the catch-all handler, not as a 4xx client
error. -/
theorem missing_feature_rejects_batch_500 (m : List ℚ → ℚ) (b : ReqBody)
    (inst0 : Instance) (rest : List Instance)
    (hex : extractInstances b = some (inst0 :: rest))
    (hlen : inst0.length = 55)
    (hmiss : ∃ inst ∈ inst0 :: rest,
        ∃ f ∈ EXPECTED_FEATURE_ORDER, f ∉ keysOf inst) :
    predictRoute m ⟨"application/json", some b⟩ = serverErrorResponse := by
  obtain ⟨e, hpre⟩ := preprocess_error_of_missing _ hmiss
  exact predictRoute_500 m b inst0 rest hex hlen e hpre

/-- C2 witness: a concrete batch missing a required feature name is
rejected whole with the 500 response. -/
theorem missing_feature_rejects_batch_500_witness :
    predictRoute (fun _ => 0)
      ⟨"application/json", some ⟨none, some [goodInstance, bogusInstance], []⟩⟩
      = serverErrorResponse := by
  refine missing_feature_rejects_batch_500 (fun _ => 0) _ goodInstance
    [bogusInstance] rfl (by decide) ?_
  refine ⟨bogusInstance, by simp, "poorhlth", by decide, by decide⟩

/-- C2 counterexample: a single-instance batch whose instance carries
55 keys but is missing the required feature name poorhlth is answered
with status 500, which is not a 4xx client error; the claim as stated
says such input gets a 4xx-equivalent rejection. -/
theorem missing_feature_returns_500_not_4xx :
    (predictRoute (fun _ => 0)
        ⟨"application/json", some ⟨some bogusInstance, none, []⟩⟩).1 = 500 ∧
    ¬(400 ≤ (predictRoute (fun _ => 0)
        ⟨"application/json", some ⟨some bogusInstance, none, []⟩⟩).1 ∧
      (predictRoute (fun _ => 0)
        ⟨"application/json", some ⟨some bogusInstance, none, []⟩⟩).1 < 500) := by
  have h : (predictRoute (fun _ => 0)
      ⟨"application/json", some ⟨some bogusInstance, none, []⟩⟩).1 = 500 := by
    decide
  exact ⟨h, by rw [h]; omega⟩

/-- A duplicate-free list is no longer than any list containing it. -/
theorem nodup_length_le_of_subset {l l' : List String} (hn : l.Nodup)
    (hs : l ⊆ l') : l.length ≤ l'.length := by
  calc l.length = l.toFinset.card := (List.toFinset_card_of_nodup hn).symm
    _ ≤ l'.toFinset.card := Finset.card_le_card fun x hx => by
        simp only [List.mem_toFinset] at hx ⊢
        exact hs hx
    _ ≤ l'.length := l'.toFinset_card_le

/-- If one instance carries exactly the 55 expected keys and another
(duplicate-free) instance carries a different number of keys, the int
cast over the joint frame fails on a NaN cell. -/
theorem astype_fails_arity (data : List Instance) (inst0 inst : Instance)
    (h0 : inst0 ∈ data) (hi : inst ∈ data)
    (hp0 : (keysOf inst0).Perm EXPECTED_FEATURE_ORDER)
    (hnd : (keysOf inst).Nodup) (hne : (keysOf inst).length ≠ 55) :
    astypeIntOk data = false := by
  have hnd0 : (keysOf inst0).Nodup := hp0.nodup_iff.mpr (by decide)
  have hlen0 : (keysOf inst0).length = 55 := by
    rw [hp0.length_eq]; rfl
  rcases Nat.lt_or_ge (keysOf inst).length 55 with hlt | hge
  · have hns : ¬ (keysOf inst0 ⊆ keysOf inst) := by
      intro hsub
      have := nodup_length_le_of_subset hnd0 hsub
      omega
    simp only [List.subset_def, not_forall] at hns
    obtain ⟨c, hc0, hcn⟩ := hns
    exact astypeIntOk_eq_false_of data inst hi c
      (mem_colNames_of_mem_keys data inst0 h0 c hc0) hcn
  · have hgt : 55 < (keysOf inst).length := by omega
    have hns : ¬ (keysOf inst ⊆ keysOf inst0) := by
      intro hsub
      have := nodup_length_le_of_subset hnd hsub
      omega
    simp only [List.subset_def, not_forall] at hns
    obtain ⟨c, hci, hcn0⟩ := hns
    exact astypeIntOk_eq_false_of data inst0 h0 c
      (mem_colNames_of_mem_keys data inst hi c hci) hcn0

/-- C3 (amended): the arity check inspects only the first instance of
the batch: a first instance whose value count differs from 55 is
rejected with the 400 client error, while a later instance with a
wrong value count slips past the check and the batch instead fails
preprocessing, surfacing as the 500 server-error response — in neither
case is an instance silently padded, truncated, or scored. -/
theorem arity_check_first_instance_only :
    (∀ (m : List ℚ → ℚ) (b : ReqBody) (inst0 : Instance)
        (rest : List Instance),
       extractInstances b = some (inst0 :: rest) → inst0.length ≠ 55 →
       predictRoute m ⟨"application/json", some b⟩
         = (400, .obj [("error", .str "Invalid number of parameters.")])) ∧
    (∀ (m : List ℚ → ℚ) (b : ReqBody) (inst0 : Instance)
        (rest : List Instance) (inst : Instance),
       extractInstances b = some (inst0 :: rest) →
       (keysOf inst0).Perm EXPECTED_FEATURE_ORDER →
       inst ∈ rest → (keysOf inst).Nodup → (keysOf inst).length ≠ 55 →
       predictRoute m ⟨"application/json", some b⟩ = serverErrorResponse) := by
  constructor
  · intro m b inst0 rest hex hlen
    have htr := bodyTruthy_of_extract b _ hex
    simp [predictRoute, htr, hex, hlen]
  · intro m b inst0 rest inst hex hp0 hinst hnd hne
    have hlen0 : inst0.length = 55 := by
      have h := hp0.length_eq
      rw [show (keysOf inst0).length = inst0.length from List.length_map _ _]
        at h
      exact h
    have hA := astype_fails_arity (inst0 :: rest) inst0 inst (by simp)
      (by simp [hinst]) hp0 hnd hne
    exact predictRoute_500 m b inst0 rest hex hlen0 .intCastingNaN
      (by simp [_preprocess_input, hA])

/-- C3 witness: a first instance with 54 values is answered with the
400 client error, and a well-formed first instance followed by a
54-value instance is answered with the 500 response. -/
theorem arity_check_first_instance_only_witness :
    predictRoute (fun _ => 0)
        ⟨"application/json", some ⟨some shortInstance, none, []⟩⟩
      = (400, .obj [("error", .str "Invalid number of parameters.")]) ∧
    predictRoute (fun _ => 0)
        ⟨"application/json",
          some ⟨none, some [goodInstance, shortInstance], []⟩⟩
      = serverErrorResponse := by
  constructor
  · exact arity_check_first_instance_only.1 (fun _ => 0) _ shortInstance []
      rfl (by decide)
  · refine arity_check_first_instance_only.2 (fun _ => 0) _ goodInstance
      [shortInstance] shortInstance rfl ?_ (by simp) (by decide) (by decide)
    have h : keysOf goodInstance = EXPECTED_FEATURE_ORDER := by
      unfold goodInstance keysOf
      rw [List.map_map,
        show (Prod.fst ∘ fun nm : String => (nm, (1 : ℤ))) = id from rfl,
        List.map_id]
    rw [h]

/-- C3 counterexample: in a batch whose first instance is well formed
and whose second instance carries only 54 values, the wrong-arity
instance does not cause an HTTP 400 client error as claimed — the
response status is 500. -/
theorem second_instance_wrong_arity_not_400 :
    (predictRoute (fun _ => 0)
        ⟨"application/json",
          some ⟨none, some [goodInstance, shortInstance], []⟩⟩).1 = 500 ∧
    (predictRoute (fun _ => 0)
        ⟨"application/json",
          some ⟨none, some [goodInstance, shortInstance], []⟩⟩).1 ≠ 400 := by
  have h : (predictRoute (fun _ => 0)
      ⟨"application/json",
        some ⟨none, some [goodInstance, shortInstance], []⟩⟩).1 = 500 := by
    decide
  exact ⟨h, by rw [h]; omega⟩

/-- On a non-empty batch whose every instance carries exactly the 55
expected keys, both preprocessing checks pass. -/
theorem checks_ok_of_valid (data : List Instance) (inst0 : Instance)
    (rest : List Instance) (hd : data = inst0 :: rest)
    (hv : ∀ inst ∈ data, (keysOf inst).Perm EXPECTED_FEATURE_ORDER) :
    astypeIntOk data = true ∧ reindexOk data = true := by
  constructor
  · rw [astypeIntOk, List.all_eq_true]
    intro inst hinst
    rw [List.all_eq_true]
    intro c hc
    rw [colNames, List.mem_dedup, List.mem_flatMap] at hc
    obtain ⟨inst', hinst', hc'⟩ := hc
    have hcE : c ∈ EXPECTED_FEATURE_ORDER := (hv inst' hinst').mem_iff.mp hc'
    exact List.elem_iff.mpr ((hv inst hinst).mem_iff.mpr hcE)
  · rw [reindexOk, List.all_eq_true]
    intro f hf
    refine List.elem_iff.mpr (mem_colNames_of_mem_keys data inst0
      (by rw [hd]; simp) f ?_)
    exact (hv inst0 (by rw [hd]; simp)).mem_iff.mpr hf

/-- On a fully valid request the route scores every instance in input
order and wraps the results in the success body. -/
theorem predictRoute_200 (m : List ℚ → ℚ) (b : ReqBody)
    (data : List Instance) (hex : extractInstances b = some data)
    (hne : data ≠ [])
    (hv : ∀ inst ∈ data, (keysOf inst).Perm EXPECTED_FEATURE_ORDER) :
    predictRoute m ⟨"application/json", some b⟩
      = (200, .obj [("success", .str "true"),
          ("prediction", .arr (data.map fun inst => .num (m (rowOf inst))))])
      := by
  obtain ⟨inst0, rest, rfl⟩ := List.exists_cons_of_ne_nil hne
  have hlen0 : inst0.length = 55 := by
    have h := (hv inst0 (by simp)).length_eq
    rw [show (keysOf inst0).length = inst0.length from List.length_map _ _]
      at h
    exact h
  have hck := checks_ok_of_valid _ inst0 rest rfl hv
  have hpp : _preprocess_input (inst0 :: rest)
      = .ok ((inst0 :: rest).map rowOf) := by
    simp [_preprocess_input, hck.1, hck.2]
  have htr := bodyTruthy_of_extract b _ hex
  simp [predictRoute, htr, hex, hlen0, hpp]

/-- C6 (amended): for every valid request the route answers HTTP 200
with a body carrying the JSON STRING "true" in its success field (not
the boolean true) and a prediction list with exactly one entry for a
single-instance features payload and exactly N entries, in input
order, for an N-instance batch payload. -/
theorem predict_success_response_shape :
    (∀ (m : List ℚ → ℚ) (f : Instance) (oi : Option (List Instance))
        (ks : List String),
       (keysOf f).Perm EXPECTED_FEATURE_ORDER →
       predictRoute m ⟨"application/json", some ⟨some f, oi, ks⟩⟩
         = (200, .obj [("success", .str "true"),
             ("prediction", .arr [.num (m (rowOf f))])])) ∧
    (∀ (m : List ℚ → ℚ) (data : List Instance) (ks : List String),
       data ≠ [] →
       (∀ inst ∈ data, (keysOf inst).Perm EXPECTED_FEATURE_ORDER) →
       predictRoute m ⟨"application/json", some ⟨none, some data, ks⟩⟩
         = (200, .obj [("success", .str "true"),
             ("prediction",
               .arr (data.map fun inst => Json.num (m (rowOf inst))))]) ∧
       (data.map fun inst => Json.num (m (rowOf inst))).length
         = data.length) := by
  constructor
  · intro m f oi ks hperm
    have h := predictRoute_200 m ⟨some f, oi, ks⟩ [f] rfl (by simp)
      (by intro inst hinst; rw [List.mem_singleton] at hinst;
          rw [hinst]; exact hperm)
    simpa using h
  · intro m data ks hne hv
    refine ⟨?_, List.length_map _ _⟩
    exact predictRoute_200 m ⟨none, some data, ks⟩ data rfl hne hv

/-- C6 witness: concrete single-instance and two-instance requests. -/
theorem predict_success_response_shape_witness :
    predictRoute (fun _ => 0)
        ⟨"application/json", some ⟨some goodInstance, none, []⟩⟩
      = (200, .obj [("success", .str "true"),
          ("prediction", .arr [.num 0])]) ∧
    predictRoute (fun _ => 0)
        ⟨"application/json",
          some ⟨none, some [goodInstance, goodInstance], []⟩⟩
      = (200, .obj [("success", .str "true"),
          ("prediction", .arr [.num 0, .num 0])]) := by
  have hperm : (keysOf goodInstance).Perm EXPECTED_FEATURE_ORDER := by
    unfold goodInstance keysOf
    rw [List.map_map,
      show (Prod.fst ∘ fun nm : String => (nm, (1 : ℤ))) = id from rfl,
      List.map_id]
  constructor
  · have h := predict_success_response_shape.1 (fun _ => 0) goodInstance
      none [] hperm
    simpa using h
  · have h := (predict_success_response_shape.2 (fun _ => 0)
      [goodInstance, goodInstance] [] (by simp)
      (by intro inst hinst; simp only [List.mem_cons, List.not_mem_nil,
            or_false] at hinst; rcases hinst with rfl | rfl <;> exact hperm)).1
    simpa using h

/-- C6 counterexample: the success field of a successful response is
the JSON string "true", not the JSON boolean true claimed by the
specified body shape. -/
theorem success_field_is_string_not_bool :
    (predictRoute (fun _ => 0)
        ⟨"application/json", some ⟨some goodInstance, none, []⟩⟩).2
      = .obj [("success", .str "true"), ("prediction", .arr [.num 0])] ∧
    Json.str "true" ≠ Json.bool true := by
  constructor
  · have hperm : (keysOf goodInstance).Perm EXPECTED_FEATURE_ORDER := by
      unfold goodInstance keysOf
      rw [List.map_map,
        show (Prod.fst ∘ fun nm : String => (nm, (1 : ℤ))) = id from rfl,
        List.map_id]
    have h := predictRoute_200 (fun _ => 0) ⟨some goodInstance, none, []⟩
      [goodInstance] rfl (by simp)
      (by intro inst hinst; rw [List.mem_singleton] at hinst;
          rw [hinst]; exact hperm)
    rw [h]
    simp
  · intro h
    cases h

/-- The invariant holds at process start. -/
theorem serveInv_init (n : ℕ) : ServeInv (initState n) := by
  refine ⟨rfl, ?_, ?_, ?_⟩ <;> intro t h <;> simp [initState] at h

/-- The invariant is preserved by every step of every thread. -/
theorem serveInv_step {n : ℕ} {s s' : ServeState n} (hinv : ServeInv s)
    (hstep : ServeStep s s') : ServeInv s' := by
  obtain ⟨h1, h2, h3, h4⟩ := hinv
  cases hstep with
  | acquire t _ hpc how =>
    refine ⟨h1, ?_, ?_, ?_⟩
    · intro u hu
      by_cases hut : u = t
      · subst hut; rfl
      · simp only [Function.update_apply, if_neg hut] at hu
        have h' := h2 u hu
        rw [how] at h'
        exact Option.noConfusion h'
    · intro u hu
      by_cases hut : u = t
      · subst hut
        simp only [Function.update_same] at hu
        exact PC.noConfusion hu
      · simp only [Function.update_apply, if_neg hut] at hu
        exact h3 u hu
    · intro u hu
      by_cases hut : u = t
      · subst hut
        simp only [Function.update_same] at hu
        rcases hu with hu | hu <;> exact PC.noConfusion hu
      · simp only [Function.update_apply, if_neg hut] at hu
        exact h4 u hu
  | testLoaded t _ hpc how hl =>
    refine ⟨h1, ?_, ?_, ?_⟩
    · intro u hu
      by_cases hut : u = t
      · subst hut; exact how
      · simp only [Function.update_apply, if_neg hut] at hu
        exact h2 u hu
    · intro u hu
      by_cases hut : u = t
      · subst hut
        simp only [Function.update_same] at hu
        exact PC.noConfusion hu
      · simp only [Function.update_apply, if_neg hut] at hu
        exact h3 u hu
    · intro u hu
      by_cases hut : u = t
      · exact hl
      · simp only [Function.update_apply, if_neg hut] at hu
        exact h4 u hu
  | testUnloaded t _ hpc how hl =>
    refine ⟨h1, ?_, ?_, ?_⟩
    · intro u hu
      by_cases hut : u = t
      · subst hut; exact how
      · simp only [Function.update_apply, if_neg hut] at hu
        exact h2 u hu
    · intro u hu
      by_cases hut : u = t
      · exact hl
      · simp only [Function.update_apply, if_neg hut] at hu
        exact h3 u hu
    · intro u hu
      by_cases hut : u = t
      · subst hut
        simp only [Function.update_same] at hu
        rcases hu with hu | hu <;> exact PC.noConfusion hu
      · simp only [Function.update_apply, if_neg hut] at hu
        exact h4 u hu
  | load t _ hpc how =>
    have hld := h3 t hpc
    rw [hld] at h1
    simp only [if_false, Bool.false_eq_true] at h1
    refine ⟨?_, ?_, ?_, ?_⟩
    · show s.loads + 1 = if true then 1 else 0
      rw [h1]
      norm_num
    · intro u hu
      by_cases hut : u = t
      · subst hut; exact how
      · simp only [Function.update_apply, if_neg hut] at hu
        exact h2 u hu
    · intro u hu
      by_cases hut : u = t
      · subst hut
        simp only [Function.update_same] at hu
        exact PC.noConfusion hu
      · simp only [Function.update_apply, if_neg hut] at hu
        have h' := h2 u (Or.inr (Or.inl hu))
        rw [how] at h'
        injection h' with h''
        exact absurd h''.symm hut
    · intro _ _
      rfl
  | unlock t _ hpc how =>
    refine ⟨h1, ?_, ?_, ?_⟩
    · intro u hu
      by_cases hut : u = t
      · subst hut
        simp only [Function.update_same] at hu
        rcases hu with hu | hu | hu <;> exact PC.noConfusion hu
      · simp only [Function.update_apply, if_neg hut] at hu
        have h' := h2 u hu
        rw [how] at h'
        injection h' with h''
        exact (hut h''.symm).elim
    · intro u hu
      by_cases hut : u = t
      · subst hut
        simp only [Function.update_same] at hu
        exact PC.noConfusion hu
      · simp only [Function.update_apply, if_neg hut] at hu
        exact h3 u hu
    · intro u hu
      by_cases hut : u = t
      · exact h4 t (Or.inl hpc)
      · simp only [Function.update_apply, if_neg hut] at hu
        exact h4 u hu

/-- The invariant holds in every reachable state. -/
theorem serveInv_reachable {n : ℕ} {s : ServeState n}
    (h : ServeReachable s) : ServeInv s := by
  induction h with
  | refl => exact serveInv_init n
  | tail _ hstep ih => exact serveInv_step ih hstep

/-- C1: for every process starting with no model loaded, any number of
concurrent first-time callers trigger at most one underlying artifact
load in every reachable interleaving — only the lock holder can perform
the unloaded-to-loading transition, callers arriving while the lock is
held block on acquisition — and once any caller has completed, exactly
one load has been performed. -/
theorem model_load_exactly_once {n : ℕ} (s : ServeState n)
    (h : ServeReachable s) :
    s.loads ≤ 1 ∧ (∀ t, s.pc t = .done → s.loads = 1) := by
  obtain ⟨h1, _, _, h4⟩ := serveInv_reachable h
  constructor
  · rw [h1]
    by_cases hb : s.loaded <;> simp [hb]
  · intro t ht
    rw [h1, h4 t (Or.inr ht)]
    rfl

/-- Concrete interleaving for the C1 witness: thread 0 acquires, tests,
loads, and releases, with thread 1 still waiting. -/
theorem wTrace : ServeReachable wS4 := by
  have st1 : ServeStep (initState 2) wS1 :=
    ServeStep.acquire 0 (initState 2) rfl rfl
  have st2 : ServeStep wS1 wS2 :=
    ServeStep.testUnloaded 0 wS1 rfl rfl rfl
  have st3 : ServeStep wS2 wS3 :=
    ServeStep.load 0 wS2 rfl rfl
  have st4 : ServeStep wS3 wS4 :=
    ServeStep.unlock 0 wS3 rfl rfl
  exact Relation.ReflTransGen.tail (Relation.ReflTransGen.tail
    (Relation.ReflTransGen.tail
      (Relation.ReflTransGen.tail Relation.ReflTransGen.refl st1) st2) st3)
    st4

/-- C1 witness: after the concrete interleaving in which thread 0 has
completed its request, exactly one artifact load was performed. -/
theorem model_load_exactly_once_witness :
    wS4.loads = 1 ∧ wS4.loads ≤ 1 := by
  have h := model_load_exactly_once wS4 wTrace
  exact ⟨h.2 0 (by decide), h.1⟩

end MLGcp
